import Mathlib

/-!
A shallow embedding of the YouTrack export pipeline
(`src/youtrack_export/export.py`, `src/youtrack_export/client.py`,
`app.py`), together with proofs about the claims of the specification.

Python strings are modelled as lists of characters, machine integers as
`Nat`/`Int`, rational arithmetic (Python float division plus `round`)
as `ℚ` with explicit banker's rounding, fallible code as `Except`, and
the per-project filesystem as an explicit association list of batch
files plus an optional metadata file.
-/

namespace YouTrackExport

/-- Python strings, modelled as lists of characters. -/
abbrev PyStr := List Char

/-- The whitespace test of Python's `str.strip`. -/
def isWS (c : Char) : Bool := c = ' ' || c = '\t' || c = '\n' || c = '\r'

/-- Left half of Python's `str.strip`: drop leading whitespace. -/
def lstrip (s : PyStr) : PyStr := s.dropWhile isWS

/-- Right half of Python's `str.strip`: drop trailing whitespace. -/
def rstrip (s : PyStr) : PyStr := (s.reverse.dropWhile isWS).reverse

/-- Python's `str.strip`: drop whitespace at both ends. -/
def pyStrip (s : PyStr) : PyStr := lstrip (rstrip s)

/-- Does the pattern `p` occur at the start of `s`? -/
def startsWith : PyStr → PyStr → Bool
  | [], _ => true
  | _ :: _, [] => false
  | p :: ps, c :: cs => p == c && startsWith ps cs

/-- Locate the first occurrence of `sep` in `s`: the part strictly before
the occurrence and the part strictly after it. `none` when `sep` does not
occur.  This is the scanning step of Python's `str.split(sep)`. -/
def findSep (sep : PyStr) : PyStr → Option (PyStr × PyStr)
  | [] => none
  | c :: rest =>
    if startsWith sep (c :: rest) then some ([], (c :: rest).drop sep.length)
    else
      match findSep sep rest with
      | some (b, a) => some (c :: b, a)
      | none => none

/-- Python's `str.split(sep)`: repeatedly split off the part before the
first occurrence of `sep`.  The fuel argument bounds the recursion;
`s.length + 1` always suffices for a non-empty separator. -/
def pySplitAux (sep : PyStr) : Nat → PyStr → List PyStr
  | 0, s => [s]
  | fuel + 1, s =>
    match findSep sep s with
    | none => [s]
    | some (b, a) => b :: pySplitAux sep fuel a

/-- Python's `str.split(sep)` for a non-empty separator. -/
def pySplit (sep s : PyStr) : List PyStr := pySplitAux sep (s.length + 1) s

/-- The literal delimiter `"| ID:"` used by `Export._parse_projects`. -/
def delim : PyStr := ['|', ' ', 'I', 'D', ':']

/-- A parsed project, as produced by `Export._parse_projects`:
`{'id': ..., 'name': ...}`. -/
structure Project where
  id : PyStr
  name : PyStr
deriving DecidableEq

/-- One iteration of `Export._parse_projects`:
`{'id': project.split('| ID:')[1].strip(), 'name': project.split('| ID:')[0].strip()}`.
When `split` yields fewer than two parts, the `[1]` access raises an
`IndexError`, modelled as `Except.error ()`. -/
def parseProject (s : PyStr) : Except Unit Project :=
  match pySplit delim s with
  | p0 :: p1 :: _ => .ok { id := pyStrip p1, name := pyStrip p0 }
  | _ => .error ()

/-- `Export._parse_projects`: the loop over all selected strings.  An
exception on any entry propagates and aborts the whole constructor. -/
def parseProjects : List PyStr → Except Unit (List Project)
  | [] => .ok []
  | s :: rest =>
    match parseProject s with
    | .error e => .error e
    | .ok p =>
      match parseProjects rest with
      | .error e => .error e
      | .ok ps => .ok (p :: ps)

/-- The encoding used by `app.py` (`init_export_projects`):
`f'{p.get('name')} | ID:{p.get('id')}'`. -/
def encodeProject (name pid : PyStr) : PyStr := name ++ (' ' :: delim) ++ pid

/-- Index of the last occurrence of `c` in `p` (Python's `str.rfind`). -/
def rfindIdx (c : Char) (p : PyStr) : Option Nat :=
  match p.reverse.findIdx? (fun d => d == c) with
  | none => none
  | some j => some (p.length - 1 - j)

/-- `os.path.splitext` for a plain file name (no directory separators):
split at the last dot, except that a name whose characters before the
last dot are all dots has no extension.  The extension keeps its
leading dot, as in Python. -/
def splitext (p : PyStr) : PyStr × PyStr :=
  match rfindIdx '.' p with
  | none => (p, [])
  | some di =>
    if (p.take di).all (fun ch => ch == '.') then (p, [])
    else (p.take di, p.drop di)

/-- The file name built by `Export._save_project_attachments`:
`f'{attachment.get('id')}_{filename[:100]}.{extension}'` where
`filename, extension = os.path.splitext(attachment.get('name'))`. -/
def savedAttachmentName (attId name : PyStr) : PyStr :=
  attId ++ '_' :: ((splitext name).1.take 100 ++ '.' :: (splitext name).2)

/-- A 200-character base name plus a `.txt` extension, the example of the
attachment-truncation property. -/
def name200 : PyStr := List.replicate 200 'a' ++ ['.', 't', 'x', 't']

/-- Python values that can sit in an issue's `resolved` field. -/
inductive PyVal where
  | vNone
  | vBool (b : Bool)
  | vInt (n : Int)
  | vStr (s : PyStr)
deriving DecidableEq

/-- Python truthiness for the modelled values: `None`, `False`, `0` and
`''` are falsy, everything else is truthy. -/
def pyTruthy : PyVal → Bool
  | .vNone => false
  | .vBool b => b
  | .vInt n => n != 0
  | .vStr s => !s.isEmpty

/-- An attachment descriptor (only the fields the exporter reads). -/
structure Attachment where
  attId : PyStr
  attName : PyStr
deriving DecidableEq

/-- An issue, reduced to the fields the exporter reads: the optional
`resolved` field and the (possibly empty) attachment list. -/
structure Issue where
  resolved : Option PyVal
  attachments : List Attachment
deriving DecidableEq

/-- The classification `if issue.get('resolved', False):` from
`Export._export_project`: an absent field defaults to `False`, then
Python truthiness decides the branch. -/
def classifyResolved (x : Issue) : Bool :=
  pyTruthy (x.resolved.getD (PyVal.vBool false))

/-- The per-project counter dictionary
`{'resolved': 0, 'unresolved': 0, 'attachments': 0}`. -/
structure Counts where
  resolved : Nat
  unresolved : Nat
  attachments : Nat
deriving DecidableEq

/-- Round-half-to-even to an integer, the rounding mode of Python's
built-in `round`. -/
def roundHalfEven (q : ℚ) : ℤ :=
  let f : ℤ := ⌊q⌋
  if q - f < 1/2 then f
  else if (1 : ℚ)/2 < q - f then f + 1
  else if f % 2 = 0 then f else f + 1

/-- Python's `round(x, 4)`. -/
def pyRound4 (q : ℚ) : ℚ := (roundHalfEven (q * 10000) : ℚ) / 10000

/-- The record written by `Export._save_project_metadata`. -/
structure Metadata where
  export_date : Nat
  total_issues : Nat
  resolved_count : Nat
  unresolved_count : Nat
  resolution_rate : ℚ
  total_attachments : Nat
deriving DecidableEq

/-- `Export._save_project_metadata`: totals, and
`round((counts['resolved'] / total if total else 0), 4)`. -/
def metadataOf (date : Nat) (c : Counts) : Metadata :=
  let total := c.resolved + c.unresolved
  { export_date := date
    total_issues := total
    resolved_count := c.resolved
    unresolved_count := c.unresolved
    resolution_rate :=
      pyRound4 (if total = 0 then 0 else (c.resolved : ℚ) / (total : ℚ))
    total_attachments := c.attachments }

/-- `Export._save_issue_to_disk`: append the issue to the JSON array in
`issues_batch_<b>.json`, creating the file when it does not exist.  The
issues store is an association list from batch number to the array in
that batch file. -/
def writeIssue (bs : List (Nat × List Issue)) (b : Nat) (x : Issue) :
    List (Nat × List Issue) :=
  if bs.any (fun p => p.1 == b) then
    bs.map (fun p => if p.1 == b then (p.1, p.2 ++ [x]) else p)
  else bs ++ [(b, [x])]

/-- The mutable state of the `_export_project` loop: `parsed_issues`,
`batch`, `counts`, and the batch files written so far. -/
structure ExpState where
  parsed : Nat
  batch : Nat
  counts : Counts
  batches : List (Nat × List Issue)
deriving DecidableEq

/-- The loop state at the start of `_export_project`:
`parsed_issues = 0`, `batch = 1`, zero counts, and an empty issues
directory (it was just removed). -/
def initState : ExpState :=
  { parsed := 0, batch := 1, counts := ⟨0, 0, 0⟩, batches := [] }

/-- The body of the `for issue in issues:` loop of
`Export._export_project`: classify by the `resolved` field, write the
issue to the current batch file, count attachments when the
`Attachments` export item was selected, advance `parsed_issues`, and
roll the batch number over every 100 issues. -/
def issueStep (ea : Bool) (st : ExpState) (x : Issue) : ExpState :=
  let c1 :=
    if classifyResolved x then
      { st.counts with resolved := st.counts.resolved + 1 }
    else
      { st.counts with unresolved := st.counts.unresolved + 1 }
  let c2 :=
    if ea then { c1 with attachments := c1.attachments + x.attachments.length }
    else c1
  { parsed := st.parsed + 1
    batch := if (st.parsed + 1) % 100 = 0 then st.batch + 1 else st.batch
    counts := c2
    batches := writeIssue st.batches st.batch x }

/-- A project's slice of the filesystem: the batch files of its
`issues/` subdirectory and its optional `metadata.json`. -/
structure ProjectFS where
  batches : List (Nat × List Issue)
  metadata : Option Metadata
deriving DecidableEq

/-- A project folder with no batch files and no metadata file. -/
def emptyProjectFS : ProjectFS := { batches := [], metadata := none }

/-- The environment one project's pipeline runs against: the responses
of the count endpoint per polling attempt, the full issue list served
page by page by `get_issues`, an optional injected failure per fetch
offset, whether `Attachments` was selected, the clock value used for
`export_date`, and the state of the project folder before the run. -/
structure ProjectEnv where
  countResp : Nat → Option Int
  allIssues : List Issue
  pageFail : Nat → Option String
  exportAttachments : Bool
  dateNow : Nat
  priorFS : ProjectFS

/-- The `while True:` loop of `Export._export_project`: fetch the page
at offset `parsed_issues` (the fetch may raise), stop on an empty page,
otherwise process each issue of the page and continue.  Pages hold at
most 100 issues (the client's default `limit`).  The fuel argument is
only a structural recursion bound; any fuel at least the number of
remaining issues gives the loop's behaviour. -/
def expGo (pf : Nat → Option String) (ea : Bool) :
    Nat → List Issue → ExpState → Except String Unit × ExpState
  | 0, _, st =>
    match pf st.parsed with
    | some msg => (.error msg, st)
    | none => (.ok (), st)
  | fuel + 1, remaining, st =>
    match pf st.parsed with
    | some msg => (.error msg, st)
    | none =>
      match remaining with
      | [] => (.ok (), st)
      | _ :: _ =>
        expGo pf ea fuel (remaining.drop 100)
          ((remaining.take 100).foldl (issueStep ea) st)

/-- `Export._export_project` for one project: remove the issues
directory (so batch files start from nothing), run the paginated loop,
and on success write the metadata file once.  A failure is wrapped in
`ExportError('Failed to export issues. ...')`; the batch files written
before the failure stay on disk and the old metadata file (never
removed by the reset) is kept. -/
def exportProject (env : ProjectEnv) : Except String Nat × ProjectFS :=
  match expGo env.pageFail env.exportAttachments env.allIssues.length
      env.allIssues initState with
  | (.error msg, st) =>
    (.error ("Failed to export issues. " ++ msg),
     { batches := st.batches, metadata := env.priorFS.metadata })
  | (.ok _, st) =>
    (.ok st.parsed,
     { batches := st.batches,
       metadata := some (metadataOf env.dateNow st.counts) })

/-- The result of the count-polling loop: its outcome, the number of
calls made to the count endpoint, and the total time slept. -/
structure PollResult where
  outcome : Except String Int
  calls : Nat
  slept : Nat

/-- `Export.__polling['max_attempts']`. -/
def pollingMaxAttempts : Nat := 10

/-- `Export.__polling['delay']`. -/
def pollingDelay : Nat := 2

/-- The `for attempt in range(1, max_attempts + 1):` loop of
`Export._get_project_issues_count_with_polling`: a `None` count returns
0 at once, a count different from the sentinel `-1` is returned at
once, and the sentinel consumes one attempt and sleeps `delay` before
the next call.  Exhausting the attempts raises. -/
def pollGo (resp : Nat → Option Int) (d : Nat) (idx : Nat) : Nat → PollResult
  | 0 => { outcome := .error "API did not return a valid issues count."
           calls := 0, slept := 0 }
  | rem + 1 =>
    match resp idx with
    | none => { outcome := .ok 0, calls := 1, slept := 0 }
    | some c =>
      if c = -1 then
        let r := pollGo resp d (idx + 1) rem
        { outcome := r.outcome, calls := r.calls + 1, slept := r.slept + d }
      else { outcome := .ok c, calls := 1, slept := 0 }

/-- `Export._get_project_issues_count_with_polling`: run the bounded
loop and wrap any failure in
`ExportError('Failed to fetch issues count. ...')`. -/
def pollProjectCount (resp : Nat → Option Int) : PollResult :=
  let r := pollGo resp pollingDelay 0 pollingMaxAttempts
  { r with
    outcome :=
      match r.outcome with
      | .error m => .error ("Failed to fetch issues count. " ++ m)
      | .ok c => .ok c }

/-- The terminal progress description of one project's pipeline. -/
inductive ProjStatus where
  | complete
  | exporting
  | error (msg : String)
deriving DecidableEq

/-- Is the status the `Complete!` one? -/
def statusComplete : ProjStatus → Bool
  | .complete => true
  | _ => false

/-- What one project's pipeline leaves behind: its terminal status and
its slice of the filesystem. -/
structure PipelineOutcome where
  status : ProjStatus
  fs : ProjectFS
deriving DecidableEq

/-- `Export._initiate_export` for one project: poll the count; when it
is positive run the export; mark `Complete!` when the exported count
reaches the polled total; any exception is caught at this boundary and
becomes the project's terminal error description. -/
def runPipeline (env : ProjectEnv) : PipelineOutcome :=
  match (pollProjectCount env.countResp).outcome with
  | .error msg =>
    { status := .error ("Error exporting: " ++ msg), fs := env.priorFS }
  | .ok total =>
    if 0 < total then
      match exportProject env with
      | (.error msg, fs2) =>
        { status := .error ("Error exporting: " ++ msg), fs := fs2 }
      | (.ok cnt, fs2) =>
        if total ≤ (cnt : Int) then { status := .complete, fs := fs2 }
        else { status := .exporting, fs := fs2 }
    else { status := .complete, fs := env.priorFS }

/-- `Export.export`: one independent pipeline is launched per project
and all are awaited with `asyncio.gather(..., return_exceptions=True)`;
the boolean is the unconditional `'Export Complete!'` message printed
after the gather. -/
def exportAll (envs : List ProjectEnv) : List PipelineOutcome × Bool :=
  (envs.map runPipeline, true)

/-- `Export.__init__` followed by `Export.export`: the selection strings
are parsed before any pipeline starts; an exception while parsing
aborts the constructor, so no pipeline runs (`none`). -/
def exportInit (strs : List PyStr) (envOf : Project → ProjectEnv) :
    Option (List PipelineOutcome × Bool) :=
  match parseProjects strs with
  | .error _ => none
  | .ok ps => some (exportAll (ps.map envOf))

/-- An HTTP response as seen by `YouTrackClient._session_json_response`:
the status, the parsed JSON body, and the body's `error` and
`error_description` fields (read only in the 400 branch). -/
structure HttpResponse where
  status : Nat
  jsonBody : PyVal
  jsonError : PyVal
  jsonErrorDescription : PyVal
deriving DecidableEq

/-- The three ways `_session_json_response` can end. -/
inductive ApiOutcome where
  | ok (body : PyVal)
  | apiError (code desc : PyVal)
  | statusError (status : Nat)
deriving DecidableEq

/-- `YouTrackClient._session_json_response`: status 200 returns the
parsed body; status 400 raises with the server-supplied `error` and
`error_description`; every other status raises a generic error carrying
the status code. -/
def sessionJsonResponse (r : HttpResponse) : ApiOutcome :=
  if r.status = 200 then .ok r.jsonBody
  else if r.status = 400 then .apiError r.jsonError r.jsonErrorDescription
  else .statusError r.status

/-- A resolved issue with no attachments, used in concrete scenarios. -/
def issA : Issue := { resolved := some (PyVal.vInt 1), attachments := [] }

/-- An unresolved issue with no attachments, used in concrete
scenarios. -/
def issB : Issue := { resolved := none, attachments := [] }

/-- An inert environment: the count endpoint reports no count resource
(`null`), so the pipeline completes at once without exporting. -/
def defaultEnv : ProjectEnv :=
  { countResp := fun _ => none
    allIssues := []
    pageFail := fun _ => none
    exportAttachments := false
    dateNow := 0
    priorFS := emptyProjectFS }

/-- The outcome of the inert environment, used as a `getD` default. -/
def defaultOutcome : PipelineOutcome := runPipeline defaultEnv

/-- Project A of the isolation scenario: one issue, count 1,
no failures. -/
def envA : ProjectEnv :=
  { countResp := fun _ => some 1
    allIssues := [issA]
    pageFail := fun _ => none
    exportAttachments := false
    dateNow := 0
    priorFS := emptyProjectFS }

/-- Project B of the isolation scenario: its first page fetch throws. -/
def envB : ProjectEnv :=
  { countResp := fun _ => some 1
    allIssues := [issB]
    pageFail := fun n => if n = 0 then some "boom" else none
    exportAttachments := false
    dateNow := 0
    priorFS := emptyProjectFS }

/-- Project C of the isolation scenario: like A. -/
def envC : ProjectEnv :=
  { countResp := fun _ => some 1
    allIssues := [issB]
    pageFail := fun _ => none
    exportAttachments := false
    dateNow := 0
    priorFS := emptyProjectFS }

/-- An environment holding exactly 250 issues, the batch-rollover
example. -/
def env250 : ProjectEnv :=
  { countResp := fun _ => some 250
    allIssues := List.replicate 250 issA
    pageFail := fun _ => none
    exportAttachments := false
    dateNow := 0
    priorFS := emptyProjectFS }

/-- First run of the idempotence scenario: one issue is exported into
batch 1 of a fresh folder. -/
def envRun1 : ProjectEnv :=
  { countResp := fun _ => some 1
    allIssues := [issA]
    pageFail := fun _ => none
    exportAttachments := false
    dateNow := 0
    priorFS := emptyProjectFS }

/-- Second run of the idempotence scenario over the folder the first
run left behind: the underlying data changed and the count endpoint now
reports 0 matching issues. -/
def envRun2 : ProjectEnv :=
  { countResp := fun _ => some 0
    allIssues := [issB]
    pageFail := fun _ => none
    exportAttachments := false
    dateNow := 1
    priorFS := (runPipeline envRun1).fs }

/-- A first-run environment whose project folder still holds the batch
file and metadata of a previous run. -/
def envW : ProjectEnv := { envRun1 with priorFS := (runPipeline envRun1).fs }

/-- The selection string `"Name | ID:"`: well-delimited but with an
empty id after splitting and trimming. -/
def emptyIdStr : PyStr := ['N', 'a', 'm', 'e', ' '] ++ delim

/-- A selection string without the `"| ID:"` delimiter. -/
def noDelimStr : PyStr := ['A', 'b', 'c']

/-- A count endpoint that is still computing for three attempts and
then reports 42 issues. -/
def resp3 : Nat → Option Int := fun i => if i < 3 then some (-1) else some 42

theorem startsWith_take (p : PyStr) : ∀ s, startsWith p s = true →
    p ++ s.drop p.length = s := by
  induction p with
  | nil => intro s _; simp
  | cons c ps ih =>
    intro s h
    cases s with
    | nil => simp [startsWith] at h
    | cons d ds =>
      simp only [startsWith, Bool.and_eq_true, beq_iff_eq] at h
      obtain ⟨rfl, h2⟩ := h
      simp only [List.cons_append, List.length_cons, List.drop_succ_cons]
      rw [ih ds h2]

theorem startsWith_of_append (p : PyStr) : ∀ (u w : PyStr),
    startsWith p (u ++ w) = true → p.length ≤ u.length →
    startsWith p u = true := by
  induction p with
  | nil => intro u w _ _; rfl
  | cons c ps ih =>
    intro u w h hl
    cases u with
    | nil => simp at hl
    | cons d ds =>
      simp only [List.cons_append, startsWith, Bool.and_eq_true] at h ⊢
      exact ⟨h.1, ih ds w h.2 (by simpa using hl)⟩

theorem startsWith_drop (p u w : PyStr) (h : startsWith p (u ++ w) = true)
    (hl : u.length ≤ p.length) : startsWith (p.drop u.length) w = true := by
  induction u generalizing p with
  | nil => simpa using h
  | cons d ds ih =>
    cases p with
    | nil => simp at hl
    | cons c ps =>
      simp only [List.cons_append, startsWith, Bool.and_eq_true] at h
      simpa using ih ps h.2 (by simpa using hl)

theorem delim_straddle : ∀ k, k < 5 →
    startsWith (delim.drop k) (' ' :: delim) = false := by decide

theorem findSep_sound (sep : PyStr) : ∀ (s b a : PyStr),
    findSep sep s = some (b, a) → s = b ++ sep ++ a := by
  intro s
  induction s with
  | nil => intro b a h; simp [findSep] at h
  | cons c rest ih =>
    intro b a h
    rw [findSep] at h
    by_cases hsw : startsWith sep (c :: rest) = true
    · rw [if_pos hsw] at h
      simp only [Option.some.injEq, Prod.mk.injEq] at h
      obtain ⟨hb, ha⟩ := h
      subst hb; subst ha
      simpa using (startsWith_take sep (c :: rest) hsw).symm
    · rw [if_neg hsw] at h
      cases hrec : findSep sep rest with
      | none => rw [hrec] at h; simp at h
      | some pr =>
        obtain ⟨b', a'⟩ := pr
        rw [hrec] at h
        simp only [Option.some.injEq, Prod.mk.injEq] at h
        obtain ⟨hb, ha⟩ := h
        subst hb; subst ha
        simpa using ih b' a' hrec

theorem findSep_at_start (v : PyStr) :
    findSep delim (delim ++ v) = some ([], v) := by
  simp [delim, findSep, startsWith]

theorem findSep_enc (v : PyStr) : ∀ (u : PyStr), findSep delim u = none →
    findSep delim (u ++ (' ' :: delim) ++ v) = some (u ++ [' '], v) := by
  intro u
  induction u with
  | nil =>
    intro _
    simp only [List.nil_append, List.cons_append]
    rw [findSep]
    have hc : startsWith delim (' ' :: (delim ++ v)) = false := by
      cases h : startsWith delim (' ' :: (delim ++ v)) with
      | false => rfl
      | true =>
        have h2 := startsWith_of_append delim (' ' :: delim) v h
          (by simp [delim])
        have h5 := delim_straddle 0 (by omega)
        simp only [List.drop_zero] at h5
        rw [h2] at h5
        exact Bool.noConfusion h5
    rw [if_neg (by simp [hc])]
    rw [findSep_at_start]
  | cons c u' ih =>
    intro hu
    rw [findSep] at hu
    by_cases hsw : startsWith delim (c :: u') = true
    · rw [if_pos hsw] at hu; simp at hu
    · rw [if_neg hsw] at hu
      cases hrec : findSep delim u' with
      | some pr => rw [hrec] at hu; obtain ⟨b', a'⟩ := pr; simp at hu
      | none =>
        have ihs := ih hrec
        simp only [List.cons_append, List.append_assoc] at ihs ⊢
        rw [findSep]
        have hcond :
            startsWith delim (c :: (u' ++ (' ' :: (delim ++ v)))) = false := by
          cases h : startsWith delim (c :: (u' ++ (' ' :: (delim ++ v)))) with
          | false => rfl
          | true =>
            rcases le_or_lt 5 (u'.length + 1) with h5 | h5
            · have h2 := startsWith_of_append delim (c :: u')
                (' ' :: (delim ++ v)) h (by simp [delim]; omega)
              exact absurd h2 hsw
            · have hd := startsWith_drop delim (c :: u')
                (' ' :: (delim ++ v)) h (by simp [delim]; omega)
              have hd2 := startsWith_of_append (delim.drop (c :: u').length)
                (' ' :: delim) v hd
                (by simp [delim, List.length_drop]; omega)
              have h5' := delim_straddle ((c :: u').length) (by simp; omega)
              rw [hd2] at h5'
              exact Bool.noConfusion h5'
        rw [if_neg (by simp [hcond])]
        rw [ihs]

theorem pySplitAuxCong : ∀ (f g : Nat) (s : PyStr), s.length < f →
    s.length < g → pySplitAux delim f s = pySplitAux delim g s := by
  intro f
  induction f with
  | zero => intro g s hf _; omega
  | succ f ih =>
    intro g s hf hg
    cases g with
    | zero => omega
    | succ g =>
      rw [pySplitAux, pySplitAux]
      cases hfs : findSep delim s with
      | none => rfl
      | some pr =>
        obtain ⟨b, a⟩ := pr
        have hs := findSep_sound delim s b a hfs
        have hlen : s.length = b.length + 5 + a.length := by
          rw [hs]; simp [delim, List.length_append]; omega
        show b :: pySplitAux delim f a = b :: pySplitAux delim g a
        rw [ih g a (by omega) (by omega)]

theorem pySplit_two (u v : PyStr) (hu : findSep delim u = none)
    (hv : findSep delim v = none) :
    pySplit delim (u ++ (' ' :: delim) ++ v) = [u ++ [' '], v] := by
  simp only [pySplit]
  rw [pySplitAux, findSep_enc v u hu]
  show (u ++ [' ']) :: pySplitAux delim ((u ++ (' ' :: delim) ++ v).length) v
      = [u ++ [' '], v]
  rw [pySplitAuxCong ((u ++ (' ' :: delim) ++ v).length) (v.length + 1) v
    (by simp [delim]; omega) (by omega)]
  rw [pySplitAux, hv]

theorem pySplit_nosep (s : PyStr) (hs : findSep delim s = none) :
    pySplit delim s = [s] := by
  simp only [pySplit]
  rw [pySplitAux, hs]

theorem pyStrip_concat_space (u : PyStr) : pyStrip (u ++ [' ']) = pyStrip u := by
  unfold pyStrip rstrip
  rw [List.reverse_append]
  simp [List.dropWhile_cons, isWS]

/-- C5 (amended): for every `name` and every non-empty `id`, neither of
which contains the substring `"| ID:"` (`findSep delim · = none`),
encoding the project as `"<name> | ID:<id>"` and parsing it back with
`Export._parse_projects` yields exactly the trimmed id and the trimmed
name.  (The claim as frozen does not restrict the id; it fails when the
id itself contains the delimiter, see the counterexample.) -/
theorem claim5_parse_roundtrip (name pid : PyStr)
    (hn : findSep delim name = none) (hi : findSep delim pid = none)
    (hne : pid ≠ []) :
    parseProject (encodeProject name pid) =
      Except.ok { id := pyStrip pid, name := pyStrip name } := by
  unfold encodeProject parseProject
  rw [pySplit_two name pid hn hi]
  simp [pyStrip_concat_space]

/-- Witness for C5: the round trip at `name = "My"`, `id = "P1"`. -/
theorem claim5_parse_roundtrip_witness :
    parseProject (encodeProject ['M', 'y'] ['P', '1']) =
      Except.ok { id := pyStrip ['P', '1'], name := pyStrip ['M', 'y'] } :=
  claim5_parse_roundtrip ['M', 'y'] ['P', '1'] (by decide) (by decide)
    (by decide)

/-- Counterexample to C5 as frozen: with `name = "P"` and the non-empty
`id = "a| ID:b"` (which contains the delimiter), encoding and parsing
does not give back the trimmed id — the split cuts the id at its own
delimiter occurrence, so the parsed id is `"a"`. -/
theorem claim5_parse_roundtrip_cx :
    parseProject (encodeProject ['P'] (['a'] ++ delim ++ ['b'])) ≠
      Except.ok { id := pyStrip (['a'] ++ delim ++ ['b']),
                  name := pyStrip ['P'] } := fun h =>
  absurd
    (congrArg
      (fun e => match e with | Except.ok p => p.id | Except.error _ => []) h)
    (by decide)

theorem parseProject_nosep (s : PyStr) (hs : findSep delim s = none) :
    parseProject s = .error () := by
  unfold parseProject
  rw [pySplit_nosep s hs]

theorem parseProjects_error (strs : List PyStr) (s : PyStr) (hmem : s ∈ strs)
    (hs : parseProject s = .error ()) :
    parseProjects strs = .error () := by
  induction strs with
  | nil => cases hmem
  | cons t rest ih =>
    rw [parseProjects]
    rcases List.mem_cons.mp hmem with rfl | hmem'
    · rw [hs]
    · cases hpt : parseProject t with
      | error e => cases e; rfl
      | ok p => rw [ih hmem']

/-- C6 (amended): a selection string missing the `"| ID:"` delimiter
makes `Export._parse_projects` raise (an `IndexError` on the `[1]`
access) before any pipeline is launched, so `exportInit` aborts with no
pipeline output.  However a well-delimited string whose id is empty
after splitting and trimming (such as `"Name | ID:"`) is NOT rejected:
it parses to a project with an empty id and pipelines are launched.
(The claim as frozen also required empty-id strings to be rejected;
see the counterexample.) -/
theorem claim6_failfast (strs : List PyStr) (envOf envOf2 : Project → ProjectEnv)
    (s : PyStr) (hmem : s ∈ strs) (hs : findSep delim s = none) :
    exportInit strs envOf = none
    ∧ parseProject emptyIdStr =
        Except.ok { id := [], name := ['N', 'a', 'm', 'e'] }
    ∧ (exportInit [emptyIdStr] envOf2).isSome = true := by
  refine ⟨?_, rfl, rfl⟩
  unfold exportInit
  rw [parseProjects_error strs s hmem (parseProject_nosep s hs)]

/-- Witness for C6: the input `["Abc"]` (no delimiter) launches no
pipeline, while `["Name | ID:"]` (empty id) does launch one. -/
theorem claim6_failfast_witness :
    exportInit [noDelimStr] (fun _ => defaultEnv) = none
    ∧ parseProject emptyIdStr =
        Except.ok { id := [], name := ['N', 'a', 'm', 'e'] }
    ∧ (exportInit [emptyIdStr] (fun _ => defaultEnv)).isSome = true :=
  claim6_failfast [noDelimStr] (fun _ => defaultEnv) (fun _ => defaultEnv)
    noDelimStr (by decide) (by decide)

/-- Counterexample to C6 as frozen: `"Name | ID:"` yields an empty id
after splitting and trimming, yet it is not rejected — it parses
successfully and an export pipeline is launched for it. -/
theorem claim6_failfast_cx :
    parseProject emptyIdStr =
      Except.ok { id := [], name := ['N', 'a', 'm', 'e'] }
    ∧ (exportInit [emptyIdStr] (fun _ => defaultEnv)).isSome = true :=
  ⟨rfl, rfl⟩

set_option maxRecDepth 8000 in
/-- C7: the attachment is saved under a name that starts with the
attachment's id, ends with the original extension (as returned by
`os.path.splitext`, including its leading dot), and keeps at most the
first 100 characters of the original base name in between; in
particular a 200-character base name with a `.txt` extension keeps
exactly its first 100 characters, with the id prefix and the extension
suffix. -/
theorem claim7_attachment_name (attId nm : PyStr) :
    savedAttachmentName attId nm
      = attId ++ '_' :: ((splitext nm).1.take 100 ++ '.' :: (splitext nm).2)
    ∧ (∃ t, attId ++ t = savedAttachmentName attId nm)
    ∧ (∃ s, s ++ (splitext nm).2 = savedAttachmentName attId nm)
    ∧ ((splitext nm).1.take 100).length ≤ 100
    ∧ (∃ r, (splitext nm).1.take 100 ++ r = (splitext nm).1)
    ∧ savedAttachmentName ['A'] name200
        = ['A', '_'] ++ List.replicate 100 'a' ++ ['.', '.', 't', 'x', 't'] := by
  refine ⟨rfl, ⟨_, rfl⟩,
    ⟨attId ++ '_' :: ((splitext nm).1.take 100 ++ ['.']), ?_⟩, ?_,
    ⟨(splitext nm).1.drop 100, List.take_append_drop 100 _⟩, ?_⟩
  · simp [savedAttachmentName, List.append_assoc]
  · simp [List.length_take]
  · decide

/-- C8 (amended): `_session_json_response` returns the parsed body on
status 200, raises a structured API error carrying the server's
`error` and `error_description` on status 400, and raises a generic
error carrying the status code on every other status — including 2xx
statuses other than 200, such as 201 and 204.  (As frozen the claim
said non-200 2xx responses are not errors; see the counterexample.) -/
theorem claim8_response_handling (r : HttpResponse) :
    (r.status = 200 → sessionJsonResponse r = ApiOutcome.ok r.jsonBody)
    ∧ (r.status = 400 →
      sessionJsonResponse r
        = ApiOutcome.apiError r.jsonError r.jsonErrorDescription)
    ∧ (r.status ≠ 200 → r.status ≠ 400 →
      sessionJsonResponse r = ApiOutcome.statusError r.status) := by
  refine ⟨fun h => ?_, fun h => ?_, fun h1 h2 => ?_⟩
  · simp [sessionJsonResponse, h]
  · simp [sessionJsonResponse, h]
  · simp [sessionJsonResponse, h1, h2]

/-- Witness for C8: a 500 response raises the generic error carrying
the status code. -/
theorem claim8_response_handling_witness :
    sessionJsonResponse
        { status := 500, jsonBody := PyVal.vNone, jsonError := PyVal.vNone,
          jsonErrorDescription := PyVal.vNone }
      = ApiOutcome.statusError 500 :=
  (claim8_response_handling
    { status := 500, jsonBody := PyVal.vNone, jsonError := PyVal.vNone,
      jsonErrorDescription := PyVal.vNone }).2.2 (by decide) (by decide)

/-- Counterexample to C8 as frozen: a 201 response is treated as an
error — the handler raises the generic status error instead of
returning the body. -/
theorem claim8_response_handling_cx :
    sessionJsonResponse
        { status := 201, jsonBody := PyVal.vInt 7, jsonError := PyVal.vNone,
          jsonErrorDescription := PyVal.vNone }
      = ApiOutcome.statusError 201
    ∧ sessionJsonResponse
        { status := 201, jsonBody := PyVal.vInt 7, jsonError := PyVal.vNone,
          jsonErrorDescription := PyVal.vNone }
      ≠ ApiOutcome.ok (PyVal.vInt 7) := ⟨rfl, by decide⟩

theorem pyRound4_zero : pyRound4 0 = 0 := by
  norm_num [pyRound4, roundHalfEven]

/-- C9: the metadata record reports `total_issues = r + u`, the two
counters, the attachment total, and
`resolution_rate = round(r / (r + u), 4)` with rate 0 when `r + u = 0`;
in particular `r = 7, u = 3, a = 12` gives `total_issues = 10`,
`resolution_rate = 0.7` and `total_attachments = 12`. -/
theorem claim9_metadata (d r u a : Nat) :
    (metadataOf d ⟨r, u, a⟩).export_date = d
    ∧ (metadataOf d ⟨r, u, a⟩).total_issues = r + u
    ∧ (metadataOf d ⟨r, u, a⟩).resolved_count = r
    ∧ (metadataOf d ⟨r, u, a⟩).unresolved_count = u
    ∧ (metadataOf d ⟨r, u, a⟩).total_attachments = a
    ∧ (metadataOf d ⟨r, u, a⟩).resolution_rate
        = (if r + u = 0 then 0
           else pyRound4 ((r : ℚ) / ((r : ℚ) + (u : ℚ))))
    ∧ (metadataOf 0 ⟨7, 3, 12⟩).total_issues = 10
    ∧ (metadataOf 0 ⟨7, 3, 12⟩).resolution_rate = 7 / 10
    ∧ (metadataOf 0 ⟨7, 3, 12⟩).total_attachments = 12 := by
  refine ⟨rfl, rfl, rfl, rfl, rfl, ?_, rfl, ?_, rfl⟩
  · by_cases h : r + u = 0
    · simp [metadataOf, h, pyRound4_zero]
    · simp only [metadataOf, h, if_neg h, if_false]
      push_cast
      rfl
  · norm_num [metadataOf, pyRound4, roundHalfEven]

/-- C10: an issue is counted as resolved iff its `resolved` field is
present and truthy; a field equal to `0`, `False`, `None` or `''`
counts as unresolved exactly like an absent field, and each processed
issue increments exactly one of the two counters. -/
theorem claim10_resolved_classification (x : Issue) (st : ExpState) (ea : Bool) :
    (classifyResolved x = true
      ↔ ∃ v, x.resolved = some v ∧ pyTruthy v = true)
    ∧ classifyResolved { x with resolved := some (PyVal.vInt 0) } = false
    ∧ classifyResolved { x with resolved := some (PyVal.vBool false) } = false
    ∧ classifyResolved { x with resolved := some PyVal.vNone } = false
    ∧ classifyResolved { x with resolved := some (PyVal.vStr []) } = false
    ∧ classifyResolved { x with resolved := none } = false
    ∧ (issueStep ea st x).counts.resolved
        = st.counts.resolved + (if classifyResolved x then 1 else 0)
    ∧ (issueStep ea st x).counts.unresolved
        = st.counts.unresolved + (if classifyResolved x then 0 else 1) := by
  refine ⟨?_, rfl, rfl, rfl, rfl, rfl, ?_, ?_⟩
  · cases hx : x.resolved with
    | none => simp [classifyResolved, hx, pyTruthy]
    | some v => simp [classifyResolved, hx]
  · cases h : classifyResolved x <;> cases ea <;> simp [issueStep, h]
  · cases h : classifyResolved x <;> cases ea <;> simp [issueStep, h]

/-- Witness for C10: the classification and counter facts at a concrete
resolved issue. -/
theorem claim10_resolved_classification_witness :
    (classifyResolved issA = true
      ↔ ∃ v, issA.resolved = some v ∧ pyTruthy v = true)
    ∧ classifyResolved { issA with resolved := some (PyVal.vInt 0) } = false
    ∧ classifyResolved { issA with resolved := some (PyVal.vBool false) } = false
    ∧ classifyResolved { issA with resolved := some PyVal.vNone } = false
    ∧ classifyResolved { issA with resolved := some (PyVal.vStr []) } = false
    ∧ classifyResolved { issA with resolved := none } = false
    ∧ (issueStep true initState issA).counts.resolved
        = initState.counts.resolved + (if classifyResolved issA then 1 else 0)
    ∧ (issueStep true initState issA).counts.unresolved
        = initState.counts.unresolved
          + (if classifyResolved issA then 0 else 1) :=
  claim10_resolved_classification issA initState true

theorem pollGo_sent (resp : Nat → Option Int) (d idx rem : Nat)
    (h : resp idx = some (-1)) :
    pollGo resp d idx (rem + 1) =
      { outcome := (pollGo resp d (idx + 1) rem).outcome
        calls := (pollGo resp d (idx + 1) rem).calls + 1
        slept := (pollGo resp d (idx + 1) rem).slept + d } := by
  rw [pollGo, h]
  rfl

theorem pollGo_null (resp : Nat → Option Int) (d idx rem : Nat)
    (h : resp idx = none) :
    pollGo resp d idx (rem + 1) = { outcome := .ok 0, calls := 1, slept := 0 } := by
  rw [pollGo, h]

theorem pollGo_real (resp : Nat → Option Int) (d idx rem : Nat) (c : Int)
    (h : resp idx = some c) (hc : c ≠ -1) :
    pollGo resp d idx (rem + 1) = { outcome := .ok c, calls := 1, slept := 0 } := by
  rw [pollGo, h]
  exact if_neg hc

theorem pollGo_skip (resp : Nat → Option Int) (d : Nat) : ∀ (k rem idx : Nat),
    k ≤ rem → (∀ j, j < k → resp (idx + j) = some (-1)) →
    pollGo resp d idx rem =
      { outcome := (pollGo resp d (idx + k) (rem - k)).outcome
        calls := (pollGo resp d (idx + k) (rem - k)).calls + k
        slept := (pollGo resp d (idx + k) (rem - k)).slept + d * k } := by
  intro k
  induction k with
  | zero => intro rem idx _ _; simp
  | succ k ih =>
    intro rem idx hk hs
    cases rem with
    | zero => omega
    | succ rem =>
      have h0 : resp idx = some (-1) := by simpa using hs 0 (by omega)
      rw [pollGo_sent resp d idx rem h0]
      have ihh := ih rem (idx + 1) (by omega) (fun j hj => by
        rw [show idx + 1 + j = idx + (j + 1) from by omega]
        exact hs (j + 1) (by omega))
      rw [ihh, show idx + 1 + k = idx + (k + 1) from by omega]
      simp only [Nat.succ_sub_succ, Nat.mul_succ, PollResult.mk.injEq]
      refine ⟨by trivial, by omega, by omega⟩

/-- C1: the count-polling loop, on any sequence of endpoint responses:
a null response returns 0 on that very call, consuming no further
attempts; `k` sentinel responses (`k` below the 10-attempt maximum)
followed by a real count `C` return `C` after exactly `k + 1` calls,
having slept the fixed 2-unit delay `k` times; and 10 consecutive
sentinel responses end in the `ExportError` after exactly 10 calls —
the loop never runs unboundedly. -/
theorem claim1_poll_behavior (resp : Nat → Option Int) (k : Nat) (c : Int) :
    (k < pollingMaxAttempts → (∀ i, i < k → resp i = some (-1)) →
      resp k = some c → c ≠ -1 →
      pollProjectCount resp =
        { outcome := Except.ok c, calls := k + 1, slept := pollingDelay * k })
    ∧ (k < pollingMaxAttempts → (∀ i, i < k → resp i = some (-1)) →
      resp k = none →
      pollProjectCount resp =
        { outcome := Except.ok 0, calls := k + 1, slept := pollingDelay * k })
    ∧ ((∀ i, i < pollingMaxAttempts → resp i = some (-1)) →
      pollProjectCount resp =
        { outcome := Except.error
            "Failed to fetch issues count. API did not return a valid issues count."
          calls := pollingMaxAttempts
          slept := pollingDelay * pollingMaxAttempts }) := by
  refine ⟨fun hk hs hr hc => ?_, fun hk hs hr => ?_, fun hs => ?_⟩
  · simp only [pollingMaxAttempts] at hk
    simp only [pollProjectCount, pollingMaxAttempts, pollingDelay]
    rw [pollGo_skip resp 2 k 10 0 (by omega) (fun j hj => by simpa using hs j hj)]
    obtain ⟨m, hm⟩ : ∃ m, 10 - k = m + 1 := ⟨10 - k - 1, by omega⟩
    rw [hm, pollGo_real resp 2 (0 + k) m c (by simpa using hr) hc]
    simp only [PollResult.mk.injEq]
    refine ⟨by trivial, by omega, by omega⟩
  · simp only [pollingMaxAttempts] at hk
    simp only [pollProjectCount, pollingMaxAttempts, pollingDelay]
    rw [pollGo_skip resp 2 k 10 0 (by omega) (fun j hj => by simpa using hs j hj)]
    obtain ⟨m, hm⟩ : ∃ m, 10 - k = m + 1 := ⟨10 - k - 1, by omega⟩
    rw [hm, pollGo_null resp 2 (0 + k) m (by simpa using hr)]
    simp only [PollResult.mk.injEq]
    refine ⟨by trivial, by omega, by omega⟩
  · simp only [pollingMaxAttempts] at hs
    simp only [pollProjectCount, pollingMaxAttempts, pollingDelay]
    rw [pollGo_skip resp 2 10 10 0 (by omega)
      (fun j hj => by simpa using hs j hj)]
    simp only [Nat.sub_self]
    rw [show pollGo resp 2 (0 + 10) 0 =
      { outcome := .error "API did not return a valid issues count.",
        calls := 0, slept := 0 } from rfl]
    rfl

/-- Witness for C1: three sentinel responses then the real count 42
give 42 after 4 calls and 3 delays. -/
theorem claim1_poll_behavior_witness :
    pollProjectCount resp3 =
      { outcome := Except.ok 42, calls := 3 + 1, slept := pollingDelay * 3 } :=
  (claim1_poll_behavior resp3 3 42).1 (by decide) (by decide) (by decide)
    (by decide)

theorem getD_map_pipeline : ∀ (l : List ProjectEnv) (i : Nat), i < l.length →
    (l.map runPipeline).getD i defaultOutcome
      = runPipeline (l.getD i defaultEnv) := by
  intro l
  induction l with
  | nil => intro i h; simp at h
  | cons e rest ih =>
    intro i h
    cases i with
    | zero => rfl
    | succ i =>
      simp only [List.map_cons, List.getD_cons_succ]
      exact ih i (by simpa using h)

/-- C2: pipelines are isolated — the gathered outcome of project `i`
is a function of project `i`'s environment alone (a failure in any
sibling cannot change it), every selected project gets an outcome, and
the overall `'Export Complete!'` signal is reported unconditionally;
concretely, when project B's export throws mid-run while A and C
succeed, A and C still complete with their metadata files written, B is
flagged as errored, and completion is still reported. -/
theorem claim2_failure_isolation (envs : List ProjectEnv) (i : Nat)
    (h : i < envs.length) :
    (exportAll envs).1.getD i defaultOutcome
        = runPipeline (envs.getD i defaultEnv)
    ∧ (exportAll envs).2 = true
    ∧ (exportAll envs).1.length = envs.length
    ∧ (exportAll [envA, envB, envC]).1.map
        (fun o => (statusComplete o.status, o.fs.metadata.isSome))
      = [(true, true), (false, false), (true, true)]
    ∧ (runPipeline envB).status
        = ProjStatus.error "Error exporting: Failed to export issues. boom" := by
  refine ⟨getD_map_pipeline envs i h, rfl, by simp [exportAll], rfl, rfl⟩

/-- Witness for C2: the isolation facts at a one-project list. -/
theorem claim2_failure_isolation_witness :
    (exportAll [defaultEnv]).1.getD 0 defaultOutcome
        = runPipeline ([defaultEnv].getD 0 defaultEnv)
    ∧ (exportAll [defaultEnv]).2 = true
    ∧ (exportAll [defaultEnv]).1.length = [defaultEnv].length
    ∧ (exportAll [envA, envB, envC]).1.map
        (fun o => (statusComplete o.status, o.fs.metadata.isSome))
      = [(true, true), (false, false), (true, true)]
    ∧ (runPipeline envB).status
        = ProjStatus.error "Error exporting: Failed to export issues. boom" :=
  claim2_failure_isolation [defaultEnv] 0 (by simp)

theorem exportProject_indep (env : ProjectEnv) (p : ProjectFS) :
    (exportProject { env with priorFS := p }).1 = (exportProject env).1
    ∧ (exportProject { env with priorFS := p }).2.batches
        = (exportProject env).2.batches := by
  unfold exportProject
  dsimp only
  cases hE : expGo env.pageFail env.exportAttachments env.allIssues.length
      env.allIssues initState with
  | mk o st =>
    cases o with
    | error msg => simp
    | ok u => simp

/-- C3 (amended): whenever the polled issue count is positive — that
is, whenever `_export_project` actually runs — the issues directory is
removed at the start of the run, so the batch files left on disk are
exactly those of a run started from an empty project folder, whatever
the folder held before.  (As frozen the claim said the reset happens on
every export run; a run whose polled count is 0 — or null — skips
`_export_project` entirely and leaves stale batch files behind, see the
counterexample.) -/
theorem claim3_issues_reset (env : ProjectEnv) (t : Int)
    (hp : (pollProjectCount env.countResp).outcome = Except.ok t)
    (ht : 0 < t) :
    (runPipeline env).fs.batches
      = (runPipeline { env with priorFS := emptyProjectFS }).fs.batches := by
  obtain ⟨ho, hb⟩ := exportProject_indep env emptyProjectFS
  unfold runPipeline
  dsimp only
  rw [hp]
  dsimp only
  simp only [if_pos ht]
  cases h1 : exportProject env with
  | mk o fs =>
    cases h2 : exportProject { env with priorFS := emptyProjectFS } with
    | mk o2 fs2 =>
      rw [h1, h2] at ho hb
      dsimp only at ho hb
      cases ho
      cases o with
      | error m => dsimp only; exact hb.symm
      | ok cnt =>
        dsimp only
        by_cases hc : t ≤ (cnt : Int)
        · simp only [if_pos hc]
          exact hb.symm
        · simp only [if_neg hc]
          exact hb.symm

/-- Witness for C3: a second run with positive count over a dirty
folder leaves the same batch files as the same run over a clean
folder. -/
theorem claim3_issues_reset_witness :
    (runPipeline envW).fs.batches
      = (runPipeline { envW with priorFS := emptyProjectFS }).fs.batches :=
  claim3_issues_reset envW 1 rfl (by decide)

/-- Counterexample to C3 as frozen: after a first run exported one
issue into batch 1, a second run over changed data whose polled count
is 0 skips `_export_project`, so the issues directory is not cleared —
the first run's batch file survives and the disk does not hold only the
second run's (empty set of) batch files. -/
theorem claim3_issues_reset_cx :
    (runPipeline envRun2).fs.batches = [(1, [issA])]
    ∧ (runPipeline { envRun2 with priorFS := emptyProjectFS }).fs.batches = []
    ∧ [(1, [issA])] ≠ ([] : List (Nat × List Issue)) :=
  ⟨rfl, rfl, by simp⟩

theorem issueStep_parsed (ea : Bool) (st : ExpState) (x : Issue) :
    (issueStep ea st x).parsed = st.parsed + 1 := rfl

theorem issueStep_batch (ea : Bool) (st : ExpState) (x : Issue) :
    (issueStep ea st x).batch
      = (if (st.parsed + 1) % 100 = 0 then st.batch + 1 else st.batch) := rfl

theorem issueStep_batches (ea : Bool) (st : ExpState) (x : Issue) :
    (issueStep ea st x).batches = writeIssue st.batches st.batch x := rfl

theorem foldl_parsed (ea : Bool) : ∀ (xs : List Issue) (st : ExpState),
    (xs.foldl (issueStep ea) st).parsed = st.parsed + xs.length := by
  intro xs
  induction xs with
  | nil => intro st; simp
  | cons x xs ih =>
    intro st
    simp only [List.foldl_cons, ih, issueStep_parsed, List.length_cons]
    omega

theorem foldl_batch (ea : Bool) : ∀ (xs : List Issue) (st : ExpState),
    st.batch = st.parsed / 100 + 1 →
    (xs.foldl (issueStep ea) st).batch = (st.parsed + xs.length) / 100 + 1 := by
  intro xs
  induction xs with
  | nil => intro st h; simpa using h
  | cons x xs ih =>
    intro st h
    simp only [List.foldl_cons]
    have hinv : (issueStep ea st x).batch = (issueStep ea st x).parsed / 100 + 1 := by
      rw [issueStep_batch, issueStep_parsed, h]
      by_cases h0 : (st.parsed + 1) % 100 = 0
      · simp only [h0, if_pos]
        omega
      · rw [if_neg h0]
        omega
    rw [ih _ hinv, issueStep_parsed]
    simp only [List.length_cons]
    omega

theorem writeIssue_fresh (bs : List (Nat × List Issue)) (b : Nat) (x : Issue)
    (h : ∀ p ∈ bs, p.1 ≠ b) : writeIssue bs b x = bs ++ [(b, [x])] := by
  have hfalse : ¬ (bs.any (fun p => p.1 == b) = true) := by
    simp only [List.any_eq_true, beq_iff_eq]
    rintro ⟨p, hp, he⟩
    exact h p hp he
  unfold writeIssue
  rw [if_neg hfalse]

theorem writeIssue_mem (bs : List (Nat × List Issue)) (b : Nat) (x : Issue)
    (h : ∃ p ∈ bs, p.1 = b) :
    writeIssue bs b x
      = bs.map (fun p => if p.1 == b then (p.1, p.2 ++ [x]) else p) := by
  have htrue : bs.any (fun p => p.1 == b) = true := by
    simp only [List.any_eq_true, beq_iff_eq]
    exact h
  unfold writeIssue
  rw [if_pos htrue]

theorem dropTakeStable (xs : List Issue) (x : Issue) (m : Nat)
    (h : m + 100 ≤ xs.length) :
    ((xs ++ [x]).drop m).take 100 = (xs.drop m).take 100 := by
  rw [List.drop_append_eq_append_drop]
  rw [show m - xs.length = 0 from by omega]
  simp only [List.drop_zero]
  rw [List.take_append_eq_append_take]
  rw [show 100 - (xs.drop m).length = 0 from by
    simp only [List.length_drop]; omega]
  simp

theorem batches_formula (ea : Bool) (xs : List Issue) :
    (xs.foldl (issueStep ea) initState).batches
      = (List.range ((xs.length + 99) / 100)).map
          (fun i => (i + 1, (xs.drop (100 * i)).take 100)) := by
  induction xs using List.reverseRecOn with
  | nil => simp [initState]
  | append_singleton xs x ih =>
    rw [List.foldl_append]
    simp only [List.foldl_cons, List.foldl_nil]
    rw [issueStep_batches]
    have hb : (List.foldl (issueStep ea) initState xs).batch
        = xs.length / 100 + 1 := by
      rw [foldl_batch ea xs initState (by simp [initState])]
      simp [initState]
    rw [ih, hb]
    simp only [List.length_append, List.length_cons, List.length_nil]
    by_cases h0 : xs.length % 100 = 0
    · have hB : (xs.length + 99) / 100 = xs.length / 100 := by omega
      have hB' : (xs.length + (0 + 1) + 99) / 100 = xs.length / 100 + 1 := by
        omega
      have hfresh : ∀ p ∈ (List.range ((xs.length + 99) / 100)).map
          (fun i => (i + 1, (xs.drop (100 * i)).take 100)),
          p.1 ≠ xs.length / 100 + 1 := by
        intro p hp
        simp only [List.mem_map, List.mem_range] at hp
        obtain ⟨i, hi, rfl⟩ := hp
        rw [hB] at hi
        simp only []
        omega
      rw [writeIssue_fresh _ _ _ hfresh, hB, hB']
      rw [List.range_succ, List.map_append]
      congr 1
      · rw [List.map_eq_map_iff]
        intro i hi
        simp only [List.mem_range] at hi
        have hle : 100 * i + 100 ≤ xs.length := by omega
        rw [dropTakeStable xs x (100 * i) hle]
      · simp only [List.map_cons, List.map_nil]
        rw [show 100 * (xs.length / 100) = xs.length from by omega]
        rw [List.drop_append_eq_append_drop, List.drop_length,
          show xs.length - xs.length = 0 from by omega]
        simp
    · have hB : (xs.length + 99) / 100 = xs.length / 100 + 1 := by omega
      have hB' : (xs.length + (0 + 1) + 99) / 100 = xs.length / 100 + 1 := by
        omega
      have hmem : ∃ p ∈ (List.range ((xs.length + 99) / 100)).map
          (fun i => (i + 1, (xs.drop (100 * i)).take 100)),
          p.1 = xs.length / 100 + 1 := by
        refine ⟨(xs.length / 100 + 1, (xs.drop (100 * (xs.length / 100))).take 100), ?_, rfl⟩
        simp only [List.mem_map, List.mem_range]
        exact ⟨xs.length / 100, by omega, rfl⟩
      rw [writeIssue_mem _ _ _ hmem, hB, hB']
      rw [List.map_map]
      rw [List.map_eq_map_iff]
      intro i hi
      simp only [List.mem_range] at hi
      simp only [Function.comp_apply]
      by_cases hik : i = xs.length / 100
      · subst hik
        rw [if_pos (by simp)]
        have hm : 100 * (xs.length / 100) ≤ xs.length := by omega
        have hlen : (xs.drop (100 * (xs.length / 100))).length
            = xs.length - 100 * (xs.length / 100) := by
          simp [List.length_drop]
        rw [List.drop_append_eq_append_drop,
          show 100 * (xs.length / 100) - xs.length = 0 from by omega]
        simp only [List.drop_zero]
        rw [List.take_of_length_le (by
          simp only [List.length_append, List.length_drop, List.length_cons,
            List.length_nil]
          omega)]
        rw [List.take_of_length_le (by
          simp only [List.length_append, List.length_drop, List.length_cons,
            List.length_nil]
          omega)]
      · rw [if_neg (by simp only [beq_iff_eq]; omega)]
        have hle : 100 * i + 100 ≤ xs.length := by omega
        rw [dropTakeStable xs x (100 * i) hle]

theorem expGo_nil (pf : Nat → Option String) (ea : Bool) (fuel : Nat)
    (st : ExpState) (hpf : pf st.parsed = none) :
    expGo pf ea fuel [] st = (.ok (), st) := by
  cases fuel with
  | zero =>
    show (match pf st.parsed with
      | some msg => ((Except.error msg : Except String Unit), st)
      | none => (.ok (), st)) = ((.ok () : Except String Unit), st)
    rw [hpf]
  | succ f =>
    show (match pf st.parsed with
      | some msg => ((Except.error msg : Except String Unit), st)
      | none => (.ok (), st)) = ((.ok () : Except String Unit), st)
    rw [hpf]

theorem expGo_cons (pf : Nat → Option String) (ea : Bool) (f : Nat)
    (c : Issue) (rest : List Issue) (st : ExpState)
    (hpf : pf st.parsed = none) :
    expGo pf ea (f + 1) (c :: rest) st
      = expGo pf ea f ((c :: rest).drop 100)
          (((c :: rest).take 100).foldl (issueStep ea) st) := by
  show (match pf st.parsed with
    | some msg => ((Except.error msg : Except String Unit), st)
    | none => expGo pf ea f ((c :: rest).drop 100)
        (((c :: rest).take 100).foldl (issueStep ea) st))
    = expGo pf ea f ((c :: rest).drop 100)
        (((c :: rest).take 100).foldl (issueStep ea) st)
  rw [hpf]

theorem expGo_pure (pf : Nat → Option String) (ea : Bool)
    (hpf : ∀ m, pf m = none) : ∀ (fuel : Nat) (remaining : List Issue)
    (st : ExpState), remaining.length ≤ fuel →
    expGo pf ea fuel remaining st
      = (.ok (), remaining.foldl (issueStep ea) st) := by
  intro fuel
  induction fuel with
  | zero =>
    intro remaining st h
    have hnil : remaining = [] := by
      cases remaining with
      | nil => rfl
      | cons c rest => simp at h
    subst hnil
    rw [expGo_nil pf ea 0 st (hpf _)]
    rfl
  | succ fuel ih =>
    intro remaining st h
    cases remaining with
    | nil =>
      rw [expGo_nil pf ea (fuel + 1) st (hpf _)]
      rfl
    | cons c rest =>
      rw [expGo_cons pf ea fuel c rest st (hpf _)]
      rw [ih ((c :: rest).drop 100) _ (by simp only [List.length_drop]; omega)]
      rw [← List.foldl_append, List.take_append_drop]

set_option maxRecDepth 8000 in
set_option maxHeartbeats 1000000 in
/-- C4: with no page failures, `_export_project` processes every issue
(the returned count is the full list length) and leaves exactly the
batch files `1, 2, ..., ceil(n / 100)` where file `b` holds the issues
with indices `(b-1)*100` up to `b*100` of the fetched sequence — batch
numbers are sequential from 1 and each file holds at most 100 issues,
the batch rolling over every 100 issues; in particular exporting
exactly 250 issues produces exactly 3 batch files with 100, 100 and 50
issues, in increasing numeric suffix order. -/
theorem claim4_batch_rollover (env : ProjectEnv)
    (hpf : ∀ m, env.pageFail m = none) :
    (exportProject env).1 = Except.ok env.allIssues.length
    ∧ (exportProject env).2.batches
        = (List.range ((env.allIssues.length + 99) / 100)).map
            (fun i => (i + 1, (env.allIssues.drop (100 * i)).take 100))
    ∧ ((exportProject env250).2.batches).map (fun p => (p.1, p.2.length))
        = [(1, 100), (2, 100), (3, 50)] := by
  have hE := expGo_pure env.pageFail env.exportAttachments hpf
    env.allIssues.length env.allIssues initState (le_refl _)
  refine ⟨?_, ?_, ?_⟩
  · unfold exportProject
    rw [hE]
    dsimp only
    rw [foldl_parsed]
    simp [initState]
  · unfold exportProject
    rw [hE]
    dsimp only
    exact batches_formula env.exportAttachments env.allIssues
  · decide

set_option maxRecDepth 8000 in
set_option maxHeartbeats 1000000 in
/-- Witness for C4: the batching facts at the 250-issue environment. -/
theorem claim4_batch_rollover_witness :
    (exportProject env250).1 = Except.ok env250.allIssues.length
    ∧ (exportProject env250).2.batches
        = (List.range ((env250.allIssues.length + 99) / 100)).map
            (fun i => (i + 1, (env250.allIssues.drop (100 * i)).take 100))
    ∧ ((exportProject env250).2.batches).map (fun p => (p.1, p.2.length))
        = [(1, 100), (2, 100), (3, 50)] :=
  claim4_batch_rollover env250 (fun _ => rfl)

end YouTrackExport
